import Mathlib

/-!
Verification of the discogsography extractor (Rust sources) against its
natural-language specification.  The Rust code is shallowly embedded:
pure computations become Lean functions, the streaming XML parser becomes
a function over the decoded XML event list, the state marker becomes a
structure with one Lean function per Rust method, and the per-file
pipeline becomes an explicit event trace.  Machine integers are modelled
as `Nat` (all counters in the source are `u64`/`usize` and never
approach overflow in the properties considered; where 32-bit wraparound
matters, in SHA-256, it is made explicit with `% 2^32`).
-/

/-! ## JSON values (serde_json::Value, restricted to the variants the parser builds)

The parser constructs only `Null`, `String`, `Array` and `Object` values
(`src/extractor/rustextractor/src/parser.rs`).  `serde_json::Map` with the
crate's default feature set is a `BTreeMap`, i.e. a key-sorted map; it is
modelled as a sorted association list.  (The repository's `Cargo.toml` is
not among the provided sources; the key-ordered representation follows the
spec's canonical, key-ordered serialization policy, which is also
serde_json's default.) -/

/-- Lexicographic order on character lists by codepoint.  Rust's `Ord` on
`String` compares UTF-8 bytes; UTF-8 is order-preserving, so byte order
and codepoint order agree. -/
def charListLt : List Char → List Char → Bool
  | [], [] => false
  | [], _ :: _ => true
  | _ :: _, [] => false
  | a :: as, b :: bs =>
    if a.toNat < b.toNat then true
    else if a.toNat = b.toNat then charListLt as bs
    else false

/-- Lexicographic order on strings (Rust `String: Ord`). -/
def strLt (a b : String) : Bool := charListLt a.data b.data

/-- Whitespace trimming (Rust `str::trim`; the dumps only contain ASCII
whitespace, for which Rust's and Lean's notions agree). -/
def strTrim (s : String) : String :=
  String.mk (((s.data.dropWhile Char.isWhitespace).reverse.dropWhile Char.isWhitespace).reverse)

/-- Split on a separator character (Rust `str::split(c)`). -/
def splitChar (c : Char) (s : String) : List String :=
  (s.data.foldr
    (fun ch acc =>
      match acc with
      | cur :: done => if ch = c then [] :: cur :: done else (ch :: cur) :: done
      | [] => [[ch]])
    [[]]).map String.mk

/-- Suffix test (Rust `str::ends_with`). -/
def strEndsWith (s suf : String) : Bool := suf.data.isSuffixOf s.data

/-- The part of `s` after the prefix `p`, when `p` is a prefix of `s`
(Rust `str::strip_prefix` composed with `unwrap_or`). -/
def stripPre (p s : String) : String :=
  if p.data.isPrefixOf s.data then String.mk (s.data.drop p.data.length) else s

inductive Value where
  | null : Value
  | str : String → Value
  | arr : List Value → Value
  | obj : List (String × Value) → Value

/-- The association-list representation behind `serde_json::Map<String, Value>`. -/
abbrev Smap := List (String × Value)

/-- `BTreeMap::insert`: replace the value at an existing key in place,
otherwise insert at the key's sorted position. -/
def Smap.insert (k : String) (v : Value) : Smap → Smap
  | [] => [(k, v)]
  | (k', v') :: t =>
    if strLt k k' then (k, v) :: (k', v') :: t
    else if k = k' then (k, v) :: t
    else (k', v') :: Smap.insert k v t

/-- `serde_json::Map::get`: the value bound to `k`, if any. -/
def Smap.get (k : String) : Smap → Option Value
  | [] => none
  | (k', v') :: t => if k' = k then some v' else Smap.get k t

/-- `Value::as_str`: `some` exactly on strings. -/
def Value.as_str : Value → Option String
  | .str s => some s
  | _ => none

/-! ## Canonical JSON serialization (serde_json::to_string) -/

/-- JSON string escaping as performed by `serde_json`: quote, backslash,
and control characters; other characters pass through verbatim. -/
def escapeJsonChar (c : Char) : String :=
  if c = '"' then "\\\""
  else if c = '\\' then "\\\\"
  else if c = (Char.ofNat 8) then "\\b"
  else if c = (Char.ofNat 9) then "\\t"
  else if c = (Char.ofNat 10) then "\\n"
  else if c = (Char.ofNat 12) then "\\f"
  else if c = (Char.ofNat 13) then "\\r"
  else if c.toNat < 32 then
    "\\u00" ++ String.mk [(Nat.digitChar (c.toNat / 16)), (Nat.digitChar (c.toNat % 16))]
  else String.singleton c

/-- Render a JSON string literal with quotes and escapes. -/
def renderJsonString (s : String) : String :=
  "\"" ++ (s.data.foldl (fun acc c => acc ++ escapeJsonChar c) "") ++ "\""

mutual

/-- `serde_json::to_string` on the modelled `Value` fragment. -/
def Value.render : Value → String
  | .null => "null"
  | .str s => renderJsonString s
  | .arr xs => "[" ++ renderArray xs ++ "]"
  | .obj fs => "\x7b" ++ renderFields fs ++ "\x7d"

/-- Comma-separated rendering of array elements. -/
def renderArray : List Value → String
  | [] => ""
  | [x] => Value.render x
  | x :: xs => Value.render x ++ "," ++ renderArray xs

/-- Comma-separated rendering of object fields. -/
def renderFields : List (String × Value) → String
  | [] => ""
  | [(k, v)] => renderJsonString k ++ ":" ++ Value.render v
  | (k, v) :: fs => renderJsonString k ++ ":" ++ Value.render v ++ "," ++ renderFields fs

end

/-! ## SHA-256 (the `sha2` crate's `Sha256`), over byte lists -/

/-- Truncate to a 32-bit word. -/
def w32 (x : Nat) : Nat := x % 4294967296

/-- 32-bit right rotation. -/
def rotr32 (n x : Nat) : Nat := w32 ((x >>> n) ||| (x <<< (32 - n)))

/-- 32-bit complement. -/
def not32 (x : Nat) : Nat := x ^^^ 4294967295

/-- SHA-256 round constants. -/
def sha256K : List Nat :=
  [1116352408, 1899447441, 3049323471, 3921009573, 961987163, 1508970993,
   2453635748, 2870763221, 3624381080, 310598401, 607225278, 1426881987,
   1925078388, 2162078206, 2614888103, 3248222580, 3835390401, 4022224774,
   264347078, 604807628, 770255983, 1249150122, 1555081692, 1996064986,
   2554220882, 2821834349, 2952996808, 3210313671, 3336571891, 3584528711,
   113926993, 338241895, 666307205, 773529912, 1294757372, 1396182291,
   1695183700, 1986661051, 2177026350, 2456956037, 2730485921, 2820302411,
   3259730800, 3345764771, 3516065817, 3600352804, 4094571909, 275423344,
   430227734, 506948616, 659060556, 883997877, 958139571, 1322822218,
   1537002063, 1747873779, 1955562222, 2024104815, 2227730452, 2361852424,
   2428436474, 2756734187, 3204031479, 3329325298]

/-- SHA-256 initial hash state. -/
def sha256Init : List Nat :=
  [1779033703, 3144134277, 1013904242, 2773480762,
   1359893119, 2600822924, 528734635, 1541459225]

/-- Pad a byte message: append 0x80, zero bytes to 56 mod 64, then the
bit length as 8 big-endian bytes. -/
def sha256Pad (msg : List Nat) : List Nat :=
  let len := msg.length
  let zeros := (64 + 56 - ((len + 1) % 64)) % 64
  let bitLen := len * 8
  msg ++ [0x80] ++ List.replicate zeros 0 ++
    [(bitLen >>> 56) % 256, (bitLen >>> 48) % 256, (bitLen >>> 40) % 256, (bitLen >>> 32) % 256,
     (bitLen >>> 24) % 256, (bitLen >>> 16) % 256, (bitLen >>> 8) % 256, bitLen % 256]

/-- Accumulator loop for `chunksOf`: `k` counts how many elements may
still join the current (reversed) chunk `acc`. -/
def chunksAux (n : Nat) : List α → Nat → List α → List (List α)
  | [], _, acc => [acc.reverse]
  | y :: ys, 0, acc => acc.reverse :: chunksAux n ys (n - 1) [y]
  | y :: ys, k + 1, acc => chunksAux n ys k (y :: acc)

/-- Split a list into chunks of `n` elements (used only with `n = 64`). -/
def chunksOf (n : Nat) : List α → List (List α)
  | [] => []
  | x :: xs => chunksAux n xs (n - 1) [x]

/-- Assemble 4 consecutive bytes into big-endian 32-bit words. -/
def bytesToWords : List Nat → List Nat
  | b0 :: b1 :: b2 :: b3 :: rest => (b0 <<< 24 ||| b1 <<< 16 ||| b2 <<< 8 ||| b3) :: bytesToWords rest
  | _ => []

/-- Extend the 16 block words to the 64-word message schedule. -/
def sha256Schedule (w : List Nat) (i : Nat) : List Nat :=
  match i with
  | 0 => w
  | j + 1 =>
    let w := sha256Schedule w j
    let t := 16 + j
    let w15 := w.getD (t - 15) 0
    let w2 := w.getD (t - 2) 0
    let s0 := (rotr32 7 w15) ^^^ (rotr32 18 w15) ^^^ (w15 >>> 3)
    let s1 := (rotr32 17 w2) ^^^ (rotr32 19 w2) ^^^ (w2 >>> 10)
    w ++ [w32 (w.getD (t - 16) 0 + s0 + w.getD (t - 7) 0 + s1)]

/-- One round of the SHA-256 compression function. -/
def sha256Round (state : List Nat) (kw : Nat × Nat) : List Nat :=
  match state with
  | [a, b, c, d, e, f, g, h] =>
    let s1 := (rotr32 6 e) ^^^ (rotr32 11 e) ^^^ (rotr32 25 e)
    let ch := (e &&& f) ^^^ ((not32 e) &&& g)
    let temp1 := w32 (h + s1 + ch + kw.1 + kw.2)
    let s0 := (rotr32 2 a) ^^^ (rotr32 13 a) ^^^ (rotr32 22 a)
    let maj := (a &&& b) ^^^ (a &&& c) ^^^ (b &&& c)
    let temp2 := w32 (s0 + maj)
    [w32 (temp1 + temp2), a, b, c, w32 (d + temp1), e, f, g]
  | s => s

/-- Process one 64-byte block. -/
def sha256Block (h : List Nat) (block : List Nat) : List Nat :=
  let w := sha256Schedule (bytesToWords block) 48
  let s := (sha256K.zip w).foldl sha256Round h
  (h.zip s).map (fun p => w32 (p.1 + p.2))

/-- SHA-256 digest of a byte message, as the eight 32-bit state words. -/
def sha256Words (msg : List Nat) : List Nat :=
  (chunksOf 64 (sha256Pad msg)).foldl sha256Block sha256Init

/-- Lowercase hex digit. -/
def hexDigit (n : Nat) : Char := Nat.digitChar (n % 16)

/-- A 32-bit word as 8 lowercase hex characters. -/
def wordToHex (x : Nat) : String :=
  String.mk [hexDigit (x >>> 28), hexDigit (x >>> 24), hexDigit (x >>> 20), hexDigit (x >>> 16),
             hexDigit (x >>> 12), hexDigit (x >>> 8), hexDigit (x >>> 4), hexDigit x]

/-- Hex rendering of a SHA-256 digest, as produced by the source's
`format!("{:x}", hasher.finalize())`. -/
def sha256Hex (msg : List Nat) : String :=
  String.join ((sha256Words msg).map wordToHex)

/-- The UTF-8 encoding of one character. -/
def utf8EncodeChar (c : Char) : List Nat :=
  let n := c.toNat
  if n < 128 then [n]
  else if n < 2048 then [192 ||| (n >>> 6), 128 ||| (n &&& 63)]
  else if n < 65536 then
    [224 ||| (n >>> 12), 128 ||| ((n >>> 6) &&& 63), 128 ||| (n &&& 63)]
  else
    [240 ||| (n >>> 18), 128 ||| ((n >>> 12) &&& 63), 128 ||| ((n >>> 6) &&& 63),
     128 ||| (n &&& 63)]

/-- The UTF-8 bytes of a string. -/
def strBytes (s : String) : List Nat := (s.data.map utf8EncodeChar).flatten

/-- `calculate_record_hash` (parser.rs lines 296-301): SHA-256 over the
serde_json serialization of the record, in lowercase hex. -/
def calculate_record_hash (record : Value) : String :=
  sha256Hex (strBytes record.render)

/-! ## Data types and messages (types.rs) -/

/-- `DataType` (types.rs): the four Discogs dump kinds. -/
inductive DataType where
  | Artists
  | Labels
  | Masters
  | Releases
deriving DecidableEq, Repr

/-- `DataMessage` (types.rs): a published record. -/
structure DataMessage where
  id : String
  sha256 : String
  data : Value

/-! ## The streaming XML parser (rustextractor/src/parser.rs)

`XmlParser::parse_file` consumes the event stream produced by
`quick_xml::Reader::read_event_into` over the gunzipped file; the
embedding takes that decoded event list as input.  `Text` events carry
the unescaped text (the source calls `e.unescape()`), `CData` events the
verbatim content. -/

/-- The decoded XML events of quick_xml that `parse_file` dispatches on. -/
inductive XmlEvent where
  | start (name : String) (attrs : List (String × String))
  | empty (name : String) (attrs : List (String × String))
  | endTag (name : String)
  | text (s : String)
  | cdata (s : String)

/-- The record element name for a data type (parser.rs lines 116-121). -/
def target_element : DataType → String
  | .Artists => "artist"
  | .Labels => "label"
  | .Masters => "master"
  | .Releases => "release"

/-- `ElementContext` (parser.rs lines 16-21). -/
structure ElementContext where
  attributes : Smap
  children : Smap
  text_content : String

/-- `ElementContext::new`. -/
def ElementContext.new : ElementContext := { attributes := [], children := [], text_content := "" }

/-- `ElementContext::add_child` (parser.rs lines 68-85): append to an
existing array, promote a single value to a two-element array, or insert. -/
def ElementContext.add_child (c : ElementContext) (child_name : String) (child_value : Value) :
    ElementContext :=
  match Smap.get child_name c.children with
  | some (Value.arr a) =>
    { c with children := Smap.insert child_name (Value.arr (a ++ [child_value])) c.children }
  | some old =>
    { c with children := Smap.insert child_name (Value.arr [old, child_value]) c.children }
  | none =>
    { c with children := Smap.insert child_name child_value c.children }

/-- `ElementContext::to_value` (parser.rs lines 33-65). -/
def ElementContext.to_value (c : ElementContext) : Value :=
  let result : Smap := c.attributes.foldl (fun r kv => Smap.insert ("@" ++ kv.1) kv.2 r) []
  let trimmed := strTrim c.text_content
  if c.children.isEmpty && result.isEmpty && !(trimmed == "") then
    Value.str trimmed
  else
    let result :=
      if c.children.isEmpty && !(trimmed == "") then
        Smap.insert "#text" (Value.str trimmed) result
      else result
    let result := c.children.foldl (fun r kv => Smap.insert kv.1 kv.2 r) result
    if result.isEmpty && !(trimmed == "") then Value.str trimmed
    else if result.isEmpty then Value.null
    else Value.obj result

/-- Attribute list to the `@`-less attribute map of an `ElementContext`
(parser.rs lines 140-144 and analogous spots). -/
def parseAttrs (attrs : List (String × String)) : Smap :=
  attrs.foldl (fun m kv => Smap.insert kv.1 (Value.str kv.2) m) []

/-- The mutable loop state of `XmlParser::parse_file` (parser.rs lines
106-113); the head of `element_stack` is the most recently pushed
context, and `messages` collects what was sent over the channel. -/
structure ParseState where
  in_target_element : Bool
  element_stack : List ElementContext
  depth : Nat
  messages : List DataMessage
  record_count : Nat

/-- One iteration of the `parse_file` event loop (parser.rs lines 123-289). -/
def parseStep (dt : DataType) (st : ParseState) (ev : XmlEvent) : ParseState :=
  let target := target_element dt
  match ev with
  | .start name attrs =>
    let depth := st.depth + 1
    let st :=
      if name = target ∧ depth = 2 then
        { st with in_target_element := true, element_stack := [] }
      else st
    if st.in_target_element then
      let context : ElementContext := { ElementContext.new with attributes := parseAttrs attrs }
      { st with depth := depth, element_stack := context :: st.element_stack }
    else
      { st with depth := depth }
  | .empty name attrs =>
    let depth := st.depth + 1
    if name = target ∧ depth = 2 then
      let st := { st with element_stack := [] }
      let context : ElementContext := { ElementContext.new with attributes := parseAttrs attrs }
      let record := context.to_value
      let st :=
        match record with
        | Value.obj obj =>
          let id := ((Smap.get "id" obj).bind Value.as_str).getD "unknown"
          let message : DataMessage :=
            { id := id, sha256 := calculate_record_hash record, data := record }
          { st with messages := st.messages ++ [message], record_count := st.record_count + 1 }
        | _ => st
      { st with in_target_element := false, depth := depth - 1 }
    else if st.in_target_element then
      let context : ElementContext := { ElementContext.new with attributes := parseAttrs attrs }
      let child_value := context.to_value
      match st.element_stack with
      | parent :: rest =>
        { st with element_stack := parent.add_child name child_value :: rest, depth := depth - 1 }
      | [] => { st with depth := depth - 1 }
    else
      { st with depth := depth - 1 }
  | .endTag name =>
    let st :=
      if st.in_target_element then
        match st.element_stack with
        | context :: rest =>
          let element_value := context.to_value
          if name = target ∧ st.depth = 2 then
            let st :=
              match element_value with
              | Value.obj obj =>
                let id :=
                  (((Smap.get "@id" obj).orElse (fun _ => Smap.get "id" obj)).bind
                    Value.as_str).getD "unknown"
                let final_obj :=
                  if dt = DataType.Releases ∨ dt = DataType.Masters then
                    if (Smap.get "@id" obj).isSome && (Smap.get "id" obj).isNone then
                      Smap.insert "id" (Value.str id) obj
                    else obj
                  else obj
                let final_value := Value.obj final_obj
                let message : DataMessage :=
                  { id := id, sha256 := calculate_record_hash final_value, data := final_value }
                { st with element_stack := rest, messages := st.messages ++ [message],
                          record_count := st.record_count + 1 }
              | _ => { st with element_stack := rest }
            { st with in_target_element := false }
          else
            match rest with
            | parent :: rest' =>
              { st with element_stack := parent.add_child name element_value :: rest' }
            | [] => { st with element_stack := [] }
        | [] => st
      else st
    { st with depth := st.depth - 1 }
  | .text s =>
    if st.in_target_element then
      match st.element_stack with
      | context :: rest =>
        { st with element_stack :=
            { context with text_content := context.text_content ++ s } :: rest }
      | [] => st
    else st
  | .cdata s =>
    if st.in_target_element then
      match st.element_stack with
      | context :: rest =>
        { st with element_stack :=
            { context with text_content := context.text_content ++ s } :: rest }
      | [] => st
    else st

/-- `XmlParser::parse_file`: run the event loop from the initial state.
The emitted channel messages are `(parse_file dt evs).messages`, the
returned count is `(parse_file dt evs).record_count`. -/
def parse_file (dt : DataType) (events : List XmlEvent) : ParseState :=
  events.foldl (parseStep dt)
    { in_target_element := false, element_stack := [], depth := 0, messages := [], record_count := 0 }


/-- The id selection of the end-tag emission branch (parser.rs lines
215-219): try the `@id` attribute key first, fall back to the `id` child
key, default to the literal "unknown". -/
def record_id (obj : Smap) : String :=
  (((Smap.get "@id" obj).orElse (fun _ => Smap.get "id" obj)).bind Value.as_str).getD "unknown"

/-- The Masters/Releases plain-`id` mirroring of the end-tag emission
branch (parser.rs lines 221-228). -/
def mirror_id (dt : DataType) (id : String) (obj : Smap) : Smap :=
  if dt = DataType.Releases ∨ dt = DataType.Masters then
    if (Smap.get "@id" obj).isSome && (Smap.get "id" obj).isNone then
      Smap.insert "id" (Value.str id) obj
    else obj
  else obj

/-! ## State marker (rustextractor/src/state_marker.rs)

Timestamps (`DateTime<Utc>`) are modelled as `Nat`; every method that
calls `Utc::now()` takes the current time as an explicit `now` argument.
`std::collections::HashMap` is modelled as an association list whose
`insert` replaces an existing key's value in place; the sums and counts
the source takes over `values()` are order-independent. -/

/-- The association-list model of `HashMap<String, A>`. -/
abbrev HMap (α : Type) := List (String × α)

/-- `HashMap::insert`: replace in place or append. -/
def hmInsert (k : String) (v : α) : HMap α → HMap α
  | [] => [(k, v)]
  | (k', v') :: t => if k' = k then (k, v) :: t else (k', v') :: hmInsert k v t

/-- `HashMap::get`. -/
def hmGet (k : String) : HMap α → Option α
  | [] => none
  | (k', v') :: t => if k' = k then some v' else hmGet k t

/-- `HashMap::get_mut` followed by a mutation: update in place when present. -/
def hmModify (k : String) (f : α → α) : HMap α → HMap α
  | [] => []
  | (k', v') :: t => if k' = k then (k', f v') :: t else (k', v') :: hmModify k f t

/-- `PhaseStatus` (state_marker.rs lines 13-18). -/
inductive PhaseStatus where
  | Pending
  | InProgress
  | Completed
  | Failed
deriving DecidableEq, Repr

/-- `FileDownloadStatus` (state_marker.rs lines 22-27). -/
structure FileDownloadStatus where
  status : PhaseStatus
  bytes_downloaded : Nat
  started_at : Option Nat
  completed_at : Option Nat
deriving DecidableEq, Repr

/-- `FileDownloadStatus::default`. -/
def FileDownloadStatus.dflt : FileDownloadStatus :=
  { status := .Pending, bytes_downloaded := 0, started_at := none, completed_at := none }

/-- `DownloadPhase` (state_marker.rs lines 42-51). -/
structure DownloadPhase where
  status : PhaseStatus
  started_at : Option Nat
  completed_at : Option Nat
  files_downloaded : Nat
  files_total : Nat
  bytes_downloaded : Nat
  downloads_by_file : HMap FileDownloadStatus
  errors : List String
deriving DecidableEq, Repr

/-- `DownloadPhase::default`. -/
def DownloadPhase.dflt : DownloadPhase :=
  { status := .Pending, started_at := none, completed_at := none, files_downloaded := 0,
    files_total := 0, bytes_downloaded := 0, downloads_by_file := [], errors := [] }

/-- `FileProcessingStatus` (state_marker.rs lines 70-77). -/
structure FileProcessingStatus where
  status : PhaseStatus
  records_extracted : Nat
  messages_published : Nat
  batches_sent : Nat
  started_at : Option Nat
  completed_at : Option Nat
deriving DecidableEq, Repr

/-- `FileProcessingStatus::default`. -/
def FileProcessingStatus.dflt : FileProcessingStatus :=
  { status := .Pending, records_extracted := 0, messages_published := 0, batches_sent := 0,
    started_at := none, completed_at := none }

/-- `ProcessingPhase` (state_marker.rs lines 94-104). -/
structure ProcessingPhase where
  status : PhaseStatus
  started_at : Option Nat
  completed_at : Option Nat
  files_processed : Nat
  files_total : Nat
  records_extracted : Nat
  current_file : Option String
  progress_by_file : HMap FileProcessingStatus
  errors : List String
deriving DecidableEq, Repr

/-- `ProcessingPhase::default`. -/
def ProcessingPhase.dflt : ProcessingPhase :=
  { status := .Pending, started_at := none, completed_at := none, files_processed := 0,
    files_total := 0, records_extracted := 0, current_file := none, progress_by_file := [],
    errors := [] }

/-- `PublishingPhase` (state_marker.rs lines 124-130). -/
structure PublishingPhase where
  status : PhaseStatus
  messages_published : Nat
  batches_sent : Nat
  errors : List String
  last_amqp_heartbeat : Option Nat
deriving DecidableEq, Repr

/-- `PublishingPhase::default`. -/
def PublishingPhase.dflt : PublishingPhase :=
  { status := .Pending, messages_published := 0, batches_sent := 0, errors := [],
    last_amqp_heartbeat := none }

/-- `ExtractionSummary` (state_marker.rs lines 146-150); the `f64`
duration is modelled in whole seconds (`num_seconds` in the source). -/
structure ExtractionSummary where
  overall_status : PhaseStatus
  total_duration_seconds : Option Int
  files_by_type : HMap PhaseStatus
deriving DecidableEq, Repr

/-- `ExtractionSummary::default`. -/
def ExtractionSummary.dflt : ExtractionSummary :=
  { overall_status := .Pending, total_duration_seconds := none, files_by_type := [] }

/-- `StateMarker` (state_marker.rs lines 164-185). -/
structure StateMarker where
  metadata_version : String
  last_updated : Nat
  current_version : String
  download_phase : DownloadPhase
  processing_phase : ProcessingPhase
  publishing_phase : PublishingPhase
  summary : ExtractionSummary
deriving DecidableEq, Repr

/-- `StateMarker::new` (state_marker.rs lines 189-199). -/
def StateMarker.new (version : String) (now : Nat) : StateMarker :=
  { metadata_version := "1.0", last_updated := now, current_version := version,
    download_phase := DownloadPhase.dflt, processing_phase := ProcessingPhase.dflt,
    publishing_phase := PublishingPhase.dflt, summary := ExtractionSummary.dflt }

/-- `ProcessingDecision` (state_marker.rs lines 507-514). -/
inductive ProcessingDecision where
  | Reprocess
  | Continue
  | Skip
deriving DecidableEq, Repr

/-- `StateMarker::should_process` (state_marker.rs lines 240-267). -/
def StateMarker.should_process (m : StateMarker) : ProcessingDecision :=
  if m.download_phase.status = PhaseStatus.Failed then ProcessingDecision.Reprocess
  else if m.processing_phase.status = PhaseStatus.Failed then ProcessingDecision.Continue
  else if m.processing_phase.status = PhaseStatus.InProgress then ProcessingDecision.Continue
  else if m.summary.overall_status = PhaseStatus.Completed then ProcessingDecision.Skip
  else ProcessingDecision.Continue

/-- `extract_data_type` (state_marker.rs lines 517-523). -/
def extract_data_type (filename : String) : Option String :=
  ((splitChar '_' filename).get? 2).bind (fun s => (splitChar '.' s).head?)

/-- `StateMarker::start_download` (state_marker.rs lines 270-276). -/
def StateMarker.start_download (m : StateMarker) (files_total : Nat) (now : Nat) : StateMarker :=
  { m with download_phase :=
      { m.download_phase with
          status := .InProgress
          started_at := some now
          files_total := files_total
          files_downloaded := 0
          bytes_downloaded := 0 } }

/-- `StateMarker::start_file_download` (state_marker.rs lines 279-286). -/
def StateMarker.start_file_download (m : StateMarker) (filename : String) (now : Nat) :
    StateMarker :=
  let status : FileDownloadStatus :=
    { FileDownloadStatus.dflt with
        status := .InProgress
        started_at := some now }
  { m with download_phase :=
      { m.download_phase with
          downloads_by_file := hmInsert filename status m.download_phase.downloads_by_file } }

/-- `StateMarker::file_downloaded` (state_marker.rs lines 289-315). -/
def StateMarker.file_downloaded (m : StateMarker) (filename : String) (bytes : Nat) (now : Nat) :
    StateMarker :=
  let dl := m.download_phase
  let dl :=
    match hmGet filename dl.downloads_by_file with
    | some _ =>
      let upd := fun (st : FileDownloadStatus) =>
        { st with
            status := .Completed
            bytes_downloaded := bytes
            completed_at := some now }
      { dl with downloads_by_file := hmModify filename upd dl.downloads_by_file }
    | none =>
      let entry : FileDownloadStatus :=
        { status := .Completed
          bytes_downloaded := bytes
          started_at := some now
          completed_at := some now }
      { dl with downloads_by_file := hmInsert filename entry dl.downloads_by_file }
  let dl := { dl with files_downloaded := dl.files_downloaded + 1 }
  let dl := { dl with bytes_downloaded :=
      (dl.downloads_by_file.map (fun p => p.2.bytes_downloaded)).sum }
  { m with download_phase := dl }

/-- `StateMarker::complete_download` (state_marker.rs lines 318-324). -/
def StateMarker.complete_download (m : StateMarker) (now : Nat) : StateMarker :=
  { m with download_phase :=
      { m.download_phase with
          status := .Completed
          completed_at := some now } }

/-- `StateMarker::fail_download` (state_marker.rs lines 327-331). -/
def StateMarker.fail_download (m : StateMarker) (error : String) : StateMarker :=
  { m with
    download_phase :=
      { m.download_phase with
          status := .Failed
          errors := m.download_phase.errors ++ [error] },
    summary := { m.summary with overall_status := .Failed } }

/-- `StateMarker::start_processing` (state_marker.rs lines 334-342). -/
def StateMarker.start_processing (m : StateMarker) (files_total : Nat) (now : Nat) : StateMarker :=
  { m with
    processing_phase :=
      { m.processing_phase with
          status := .InProgress
          started_at := some now
          files_total := files_total
          files_processed := 0
          records_extracted := 0 },
    summary := { m.summary with overall_status := .InProgress } }

/-- `StateMarker::start_file_processing` (state_marker.rs lines 345-360). -/
def StateMarker.start_file_processing (m : StateMarker) (filename : String) (now : Nat) :
    StateMarker :=
  let pp := { m.processing_phase with current_file := some filename }
  let entry : FileProcessingStatus :=
    { FileProcessingStatus.dflt with
        status := .InProgress
        started_at := some now }
  let pp := { pp with progress_by_file := hmInsert filename entry pp.progress_by_file }
  let summary :=
    match extract_data_type filename with
    | some data_type =>
      { m.summary with files_by_type := hmInsert data_type .InProgress m.summary.files_by_type }
    | none => m.summary
  { m with processing_phase := pp, summary := summary }

/-- Recompute the three aggregate counters as sums over the per-file map
(the shared tail of `update_file_progress` and `complete_file_processing`,
state_marker.rs lines 370-390 and 412-433). -/
def StateMarker.recomputeSums (m : StateMarker) : StateMarker :=
  let pp := { m.processing_phase with records_extracted :=
      (m.processing_phase.progress_by_file.map (fun p => p.2.records_extracted)).sum }
  let pub := { m.publishing_phase with
                 messages_published :=
                   (m.processing_phase.progress_by_file.map (fun p => p.2.messages_published)).sum
                 batches_sent :=
                   (m.processing_phase.progress_by_file.map (fun p => p.2.batches_sent)).sum }
  { m with processing_phase := pp, publishing_phase := pub }

/-- `StateMarker::update_file_progress` (state_marker.rs lines 363-400). -/
def StateMarker.update_file_progress (m : StateMarker) (filename : String)
    (records messages batches : Nat) (now : Nat) : StateMarker :=
  let upd := fun (st : FileProcessingStatus) =>
    { st with
        records_extracted := records
        messages_published := messages
        batches_sent := batches }
  let m :=
    { m with processing_phase :=
        { m.processing_phase with
            progress_by_file := hmModify filename upd m.processing_phase.progress_by_file } }
  let m := m.recomputeSums
  if m.publishing_phase.messages_published > 0 then
    { m with publishing_phase :=
        { m.publishing_phase with
            status := .InProgress
            last_amqp_heartbeat := some now } }
  else m

/-- `StateMarker::complete_file_processing` (state_marker.rs lines 403-439). -/
def StateMarker.complete_file_processing (m : StateMarker) (filename : String) (records : Nat)
    (now : Nat) : StateMarker :=
  let upd := fun (st : FileProcessingStatus) =>
    { st with
        status := .Completed
        completed_at := some now
        records_extracted := records }
  let m :=
    { m with processing_phase :=
        { m.processing_phase with
            progress_by_file := hmModify filename upd m.processing_phase.progress_by_file } }
  let m :=
    { m with processing_phase :=
        { m.processing_phase with files_processed := m.processing_phase.files_processed + 1 } }
  let m := m.recomputeSums
  match extract_data_type filename with
  | some data_type =>
    { m with summary :=
        { m.summary with files_by_type := hmInsert data_type .Completed m.summary.files_by_type } }
  | none => m

/-- `StateMarker::complete_processing` (state_marker.rs lines 442-450). -/
def StateMarker.complete_processing (m : StateMarker) (now : Nat) : StateMarker :=
  { m with processing_phase :=
      { m.processing_phase with
          status := .Completed
          completed_at := some now
          current_file := none } }

/-- `StateMarker::fail_processing` (state_marker.rs lines 453-457). -/
def StateMarker.fail_processing (m : StateMarker) (error : String) : StateMarker :=
  { m with
    processing_phase :=
      { m.processing_phase with
          status := .Failed
          errors := m.processing_phase.errors ++ [error] },
    summary := { m.summary with overall_status := .Failed } }

/-- `StateMarker::update_publishing` (state_marker.rs lines 460-465). -/
def StateMarker.update_publishing (m : StateMarker) (messages batches : Nat) (now : Nat) :
    StateMarker :=
  { m with publishing_phase :=
      { m.publishing_phase with
          status := .InProgress
          messages_published := m.publishing_phase.messages_published + messages
          batches_sent := m.publishing_phase.batches_sent + batches
          last_amqp_heartbeat := some now } }

/-- `StateMarker::fail_publishing` (state_marker.rs lines 468-471). -/
def StateMarker.fail_publishing (m : StateMarker) (error : String) : StateMarker :=
  { m with publishing_phase :=
      { m.publishing_phase with
          status := .Failed
          errors := m.publishing_phase.errors ++ [error] } }

/-- `StateMarker::complete_extraction` (state_marker.rs lines 474-487). -/
def StateMarker.complete_extraction (m : StateMarker) : StateMarker :=
  let m :=
    { m with publishing_phase := { m.publishing_phase with status := .Completed },
             summary := { m.summary with overall_status := .Completed } }
  match m.download_phase.started_at, m.processing_phase.completed_at with
  | some start, some fin =>
    { m with summary :=
        { m.summary with total_duration_seconds := some ((fin : Int) - (start : Int)) } }
  | _, _ => m

/-- `StateMarker::pending_files` (state_marker.rs lines 490-502). -/
def StateMarker.pending_files (m : StateMarker) (all_files : List String) : List String :=
  all_files.filter (fun f =>
    match hmGet f m.processing_phase.progress_by_file with
    | some status => decide (status.status ≠ PhaseStatus.Completed)
    | none => true)

/-- The mutating state-marker API calls, as an operation language for
reasoning about arbitrary call sequences. -/
inductive MarkerOp where
  | start_download (files_total : Nat) (now : Nat)
  | start_file_download (filename : String) (now : Nat)
  | file_downloaded (filename : String) (bytes : Nat) (now : Nat)
  | complete_download (now : Nat)
  | fail_download (error : String)
  | start_processing (files_total : Nat) (now : Nat)
  | start_file_processing (filename : String) (now : Nat)
  | update_file_progress (filename : String) (records messages batches : Nat) (now : Nat)
  | complete_file_processing (filename : String) (records : Nat) (now : Nat)
  | complete_processing (now : Nat)
  | fail_processing (error : String)
  | update_publishing (messages batches : Nat) (now : Nat)
  | fail_publishing (error : String)
  | complete_extraction

/-- Interpret one operation. -/
def MarkerOp.apply (m : StateMarker) : MarkerOp → StateMarker
  | .start_download ft now => m.start_download ft now
  | .start_file_download f now => m.start_file_download f now
  | .file_downloaded f b now => m.file_downloaded f b now
  | .complete_download now => m.complete_download now
  | .fail_download e => m.fail_download e
  | .start_processing ft now => m.start_processing ft now
  | .start_file_processing f now => m.start_file_processing f now
  | .update_file_progress f r ms b now => m.update_file_progress f r ms b now
  | .complete_file_processing f r now => m.complete_file_processing f r now
  | .complete_processing now => m.complete_processing now
  | .fail_processing e => m.fail_processing e
  | .update_publishing ms b now => m.update_publishing ms b now
  | .fail_publishing e => m.fail_publishing e
  | .complete_extraction => m.complete_extraction

/-- Interpret a call sequence left to right. -/
def applyOps (m : StateMarker) (ops : List MarkerOp) : StateMarker :=
  ops.foldl MarkerOp.apply m

/-- The number of `Completed` entries of a per-file map. -/
def completedCount (pf : HMap FileProcessingStatus) : Nat :=
  (pf.filter (fun p => p.2.status = PhaseStatus.Completed)).length

/-! ## Downloader (rustextractor/src/downloader.rs) -/

/-- `S3FileInfo` (types.rs): remote object key and size. -/
structure S3FileInfo where
  name : String
  size : Nat
deriving DecidableEq, Repr

/-- `LocalFileInfo` (types.rs): sidecar metadata entry. -/
structure LocalFileInfo where
  path : String
  checksum : String
  version : String
  size : Nat
deriving DecidableEq, Repr

/-- `HashMap<String, Vec<S3FileInfo>>::entry(id).or_default().push(file)`:
append to an existing group in place, otherwise add a new group. -/
def groupAdd (k : String) (f : S3FileInfo) : List (String × List S3FileInfo) →
    List (String × List S3FileInfo)
  | [] => [(k, [f])]
  | (k', fs) :: t => if k' = k then (k', fs ++ [f]) :: t else (k', fs) :: groupAdd k f t

/-- The version-grouping pass of `get_latest_monthly_files` (downloader.rs
lines 237-246): group by the second `_`-separated component of the key. -/
def groupByVersion (files : List S3FileInfo) : List (String × List S3FileInfo) :=
  files.foldl
    (fun m f =>
      match splitChar '_' f.name with
      | _ :: id :: _ => groupAdd id f m
      | _ => m)
    []

/-- The descending order used for version ids (downloader.rs line 252,
`sort_by(|a, b| b.cmp(a))`): `a` precedes `b` when `a` is not less than `b`. -/
def descOrder (a b : String) : Prop := strLt a b = false

instance : DecidableRel descOrder := fun a b => instDecidableEqBool (strLt a b) false

/-- The data-file projection of one version group (downloader.rs lines
263-270): keep `.xml.gz` entries and strip the `data/` prefix. -/
def dataFilesOf (files_for_id : List S3FileInfo) : List S3FileInfo :=
  (files_for_id.filter (fun f => strEndsWith f.name ".xml.gz")).map
    (fun f => { name := stripPre "data/" f.name, size := f.size })

/-- The group a version id maps to (`ids.get(id).unwrap()`; the ids fed to
the selection loop are exactly the map's keys, so the default is unused). -/
def groupOf (ids : List (String × List S3FileInfo)) (k : String) : List S3FileInfo :=
  (hmGet k ids).getD []

/-- The selection condition `get_latest_monthly_files` actually tests for
a version group: exactly five entries, exactly four of them `.xml.gz`
data files. -/
def completeGroup (g : List S3FileInfo) : Prop :=
  g.length = 5 ∧ (dataFilesOf g).length = 4

instance (g : List S3FileInfo) : Decidable (completeGroup g) := by
  unfold completeGroup
  infer_instance

/-- The selection loop of `get_latest_monthly_files` (downloader.rs lines
254-282): first id, in the given order, whose group has exactly five
entries of which exactly four are `.xml.gz` data files. -/
def selectVersion (ids : List (String × List S3FileInfo)) : List String → List S3FileInfo
  | [] => []
  | id :: rest =>
    if (groupOf ids id).length ≠ 5 then selectVersion ids rest
    else if (dataFilesOf (groupOf ids id)).length = 4 then dataFilesOf (groupOf ids id)
    else selectVersion ids rest

/-- `Downloader::get_latest_monthly_files` (downloader.rs lines 235-283).
The source's `sort_by(|a, b| b.cmp(a))` on the key list is modelled by
`List.insertionSort` with the total order `descOrder`; on the duplicate-free
key list the descending-sorted result is unique, so the choice of sorting
algorithm is immaterial. -/
def get_latest_monthly_files (files : List S3FileInfo) : List S3FileInfo :=
  let ids := groupByVersion files
  let sorted_ids := List.insertionSort descOrder (ids.map Prod.fst)
  selectVersion ids sorted_ids

/-- `Path::new(name).file_name()` composed with `.unwrap_or("unknown_file")`
as used throughout downloader.rs: the last `/`-separated component. -/
def baseName (name : String) : String :=
  ((splitChar '/' name).getLast?).getD "unknown_file"

/-- The local filesystem facts `should_download` consults: whether a path
exists, and the SHA-256 that `calculate_file_checksum` computes for it. -/
structure LocalDisk where
  pathExists : String → Bool
  checksumOf : String → String

/-- `Downloader::should_download` (downloader.rs lines 285-313).  The
`self.metadata` map and `self.output_directory` are passed explicitly. -/
def should_download (disk : LocalDisk) (output_directory : String)
    (metadata : HMap LocalFileInfo) (file_info : S3FileInfo) : Bool :=
  let filename := baseName file_info.name
  let local_path := output_directory ++ "/" ++ filename
  if !(disk.pathExists local_path) then true
  else
    match hmGet filename metadata with
    | some local_info =>
      if disk.pathExists local_path then
        if !(disk.checksumOf local_path == local_info.checksum) then true
        else false
      else false
    | none => true

/-! ## Per-file pipeline traces (C7)

`process_single_file` is straight-line async code: every listed step is
reached through an `await` on the previous one, so the steps of one file's
pipeline happen in program order.  The two implementations are recorded as
their event traces. -/

/-- The externally visible steps of a per-file pipeline. -/
inductive PipelineStep where
  | marker_start_file_processing
  | marker_save
  | mq_setup_queues
  | state_insert_active_connection
  | workers_run_and_join
  | marker_complete_file_processing
  | state_insert_completed_file
  | send_file_complete
  | mq_close
  | mark_processed_in_processing_state
  | save_processing_state
deriving DecidableEq, Repr

/-- The trace of `process_single_file` in `src/extractor/src/extractor.rs`
(lines 211-304): the state-marker Completed transition (lines 281-287)
precedes the `send_file_complete` publish (line 297). -/
def process_single_file_trace : List PipelineStep :=
  [.marker_start_file_processing, .marker_save, .mq_setup_queues,
   .state_insert_active_connection, .workers_run_and_join,
   .marker_complete_file_processing, .marker_save, .state_insert_completed_file,
   .send_file_complete, .mq_close]

/-- The trace of one spawned per-file task in
`src/extractor/rustextractor/src/extractor.rs` (lines 90-106 around
`process_single_file`, lines 147-215): `send_file_complete` (line 201) runs
inside `process_single_file`, and the durable `mark_processed` write
(lines 100-102) only after it returns. -/
def rustextractor_pipeline_trace : List PipelineStep :=
  [.mq_setup_queues, .state_insert_active_connection, .workers_run_and_join,
   .send_file_complete, .mq_close, .state_insert_completed_file,
   .mark_processed_in_processing_state, .save_processing_state]

/-- Position of the first occurrence of a step in a trace (the trace length
when absent). -/
def stepPos (t : List PipelineStep) (s : PipelineStep) : Nat :=
  match t with
  | [] => 0
  | x :: xs => if x = s then 0 else stepPos xs s + 1

/-! ## The message batcher (C10)

`message_batcher` (src/extractor/src/extractor.rs lines 318-381 and
rustextractor/src/extractor.rs lines 218-267; the two have identical
channel behaviour, the former additionally saves the state marker
periodically, which touches no channel).  Each loop iteration receives
either a message, a 100 ms timeout, or the channel close; the close ends
the loop after flushing the residue.  A timeout event carries the
nondeterministic fact of whether more than one second passed since the
last flush. -/

/-- One outcome of `tokio::time::timeout(100ms, receiver.recv())`. -/
inductive RecvEvent where
  | msg (m : DataMessage)
  | timeout (elapsedOverOneSec : Bool)

/-- The batcher loop: the input list holds the events before the channel
close; the residue is flushed at the close.  Returns the batches in the
order they are sent. -/
def message_batcher (batch_size : Nat) (batch : List DataMessage) :
    List RecvEvent → List (List DataMessage)
  | [] => if batch.isEmpty then [] else [batch]
  | .msg m :: rest =>
    let batch := batch ++ [m]
    if batch.length ≥ batch_size then batch :: message_batcher batch_size [] rest
    else message_batcher batch_size batch rest
  | .timeout over :: rest =>
    if !batch.isEmpty && over then batch :: message_batcher batch_size [] rest
    else message_batcher batch_size batch rest

/-- The messages carried by an event list, in order. -/
def eventMessages : List RecvEvent → List DataMessage
  | [] => []
  | .msg m :: rest => m :: eventMessages rest
  | .timeout _ :: rest => eventMessages rest

/-! ## Helper definitions used by the claim statements -/

/-- Building a map by inserting the given entries one by one (the way
`ElementContext` maps are built during parsing). -/
def fromEntries (entries : List (String × Value)) : Smap :=
  entries.foldr (fun p m => Smap.insert p.1 p.2 m) []

/-- The number of `complete_file_processing` calls in an operation list
since the most recent `start_processing` (starting from `acc`). -/
def fpCount : Nat → List MarkerOp → Nat
  | acc, [] => acc
  | _, .start_processing _ _ :: rest => fpCount 0 rest
  | acc, .complete_file_processing _ _ _ :: rest => fpCount (acc + 1) rest
  | acc, _ :: rest => fpCount acc rest

/-- The aggregate counters agree with the sums over the per-file map
(spec invariant (iii)). -/
def sumsConsistent (m : StateMarker) : Prop :=
  m.processing_phase.records_extracted =
      (m.processing_phase.progress_by_file.map (fun p => p.2.records_extracted)).sum
    ∧ m.publishing_phase.messages_published =
      (m.processing_phase.progress_by_file.map (fun p => p.2.messages_published)).sum
    ∧ m.publishing_phase.batches_sent =
      (m.processing_phase.progress_by_file.map (fun p => p.2.batches_sent)).sum

/-! ## Concrete instances used by individual claims -/

/-- An Artists dump whose record carries both an `id` attribute (value `a`)
and an `id` child element (text `c`). -/
def artistsBothIdsStream (a c : String) : List XmlEvent :=
  [.start "artists" [], .start "artist" [("id", a)],
   .start "id" [], .text c, .endTag "id", .endTag "artist", .endTag "artists"]

/-- A Labels dump whose record carries only an `id` child element. -/
def labelsChildIdStream (c : String) : List XmlEvent :=
  [.start "labels" [], .start "label" [], .start "id" [], .text c, .endTag "id",
   .endTag "label", .endTag "labels"]

/-- A Masters dump whose record carries an `id` attribute. -/
def mastersAttrIdStream (a : String) : List XmlEvent :=
  [.start "masters" [], .start "master" [("id", a)], .start "title" [], .text "T",
   .endTag "title", .endTag "master", .endTag "masters"]

/-- A Releases dump whose record carries an `id` attribute. -/
def releasesAttrIdStream (a : String) : List XmlEvent :=
  [.start "releases" [], .start "release" [("id", a)], .start "title" [], .text "T",
   .endTag "title", .endTag "release", .endTag "releases"]

/-- A mid-parse element context holding just an `id` attribute (used to
instantiate the general emission rule of C1). -/
def c1Context : ElementContext :=
  { attributes := [("id", Value.str "1")], children := [], text_content := "" }

/-- The parser state about to close the record of `c1Context`. -/
def c1State : ParseState :=
  { in_target_element := true, element_stack := [c1Context], depth := 2,
    messages := [], record_count := 0 }

/-- A Releases dump with a self-closing record element. -/
def selfClosingRelease : List XmlEvent :=
  [.start "releases" [], .empty "release" [("id", "7")], .endTag "releases"]

/-- The equivalent open/close pair with empty body. -/
def openCloseRelease : List XmlEvent :=
  [.start "releases" [], .start "release" [("id", "7")], .endTag "release", .endTag "releases"]

/-- The payload object of a data message (all records in these claims are
objects). -/
def payloadFields (m : DataMessage) : Smap :=
  match m.data with
  | Value.obj o => o
  | _ => []

/-- A call sequence that completes the same file twice. -/
def doubleCompleteOps : List MarkerOp :=
  [.start_file_processing "f" 0, .complete_file_processing "f" 5 0,
   .complete_file_processing "f" 5 0]

/-- A state marker as loadable from a persisted file: summary already
Completed while the processing phase is InProgress. -/
def completedButInProgressMarker : StateMarker :=
  { StateMarker.new "20240101" 0 with
      processing_phase := { ProcessingPhase.dflt with status := PhaseStatus.InProgress }
      summary := { ExtractionSummary.dflt with overall_status := PhaseStatus.Completed } }

/-- Five remote files of one version: four data files and a stray text
file, but no CHECKSUM. -/
def fiveWithoutChecksum : List S3FileInfo :=
  [{ name := "data/discogs_20241215_artists.xml.gz", size := 1 },
   { name := "data/discogs_20241215_labels.xml.gz", size := 1 },
   { name := "data/discogs_20241215_masters.xml.gz", size := 1 },
   { name := "data/discogs_20241215_releases.xml.gz", size := 1 },
   { name := "data/discogs_20241215_README.txt", size := 1 }]

/-- A cached-file scenario: the file exists, its recomputed checksum
matches the sidecar entry, but the stored size (1) differs from the known
remote size (2). -/
def c5Disk : LocalDisk := { pathExists := fun _ => true, checksumOf := fun _ => "h" }

/-- The sidecar metadata for the C5 scenario. -/
def c5Meta : HMap LocalFileInfo :=
  [("f.xml.gz", { path := "p", checksum := "h", version := "v", size := 1 })]

/-- The remote descriptor for the C5 scenario, with known size 2. -/
def c5Remote : S3FileInfo := { name := "f.xml.gz", size := 2 }

/-- Input events for the batcher witness. -/
def c10Events : List RecvEvent :=
  [.msg { id := "1", sha256 := "", data := Value.null },
   .timeout true,
   .msg { id := "2", sha256 := "", data := Value.null },
   .msg { id := "3", sha256 := "", data := Value.null },
   .timeout false]

instance (m : StateMarker) : Decidable (sumsConsistent m) := by
  unfold sumsConsistent
  infer_instance

/-! ## Order facts for the embedded string order -/

theorem charListLt_irrefl : ∀ a : List Char, charListLt a a = false := by
  intro a
  induction a with
  | nil => rfl
  | cons x xs ih => simp [charListLt, ih]

theorem charListLt_asymm : ∀ a b : List Char, charListLt a b = true → charListLt b a = false := by
  intro a
  induction a with
  | nil =>
    intro b h
    cases b with
    | nil => simp [charListLt] at h
    | cons y ys => simp [charListLt]
  | cons x xs ih =>
    intro b h
    cases b with
    | nil => simp [charListLt] at h
    | cons y ys =>
      simp only [charListLt] at h ⊢
      by_cases h1 : x.toNat < y.toNat
      · rw [if_neg (by omega : ¬ y.toNat < x.toNat), if_neg (by omega : ¬ y.toNat = x.toNat)]
      · by_cases h2 : x.toNat = y.toNat
        · rw [if_neg h1, if_pos h2] at h
          rw [if_neg (by omega : ¬ y.toNat < x.toNat), if_pos (by omega : y.toNat = x.toNat)]
          exact ih ys h
        · rw [if_neg h1, if_neg h2] at h
          exact absurd h (by simp)

theorem charListLt_total : ∀ a b : List Char,
    charListLt a b = false → charListLt b a = false → a = b := by
  intro a
  induction a with
  | nil =>
    intro b h1 h2
    cases b with
    | nil => rfl
    | cons y ys => simp [charListLt] at h1
  | cons x xs ih =>
    intro b h1 h2
    cases b with
    | nil => simp [charListLt] at h2
    | cons y ys =>
      simp only [charListLt] at h1 h2
      by_cases h3 : x.toNat < y.toNat
      · rw [if_pos h3] at h1
        exact absurd h1 (by simp)
      · by_cases h4 : x.toNat = y.toNat
        · rw [if_neg h3, if_pos h4] at h1
          rw [if_neg (by omega : ¬ y.toNat < x.toNat), if_pos (by omega : y.toNat = x.toNat)] at h2
          have hx : x = y := by
            have := congrArg Char.ofNat h4
            rwa [Char.ofNat_toNat, Char.ofNat_toNat] at this
          exact congrArg₂ List.cons hx (ih ys h1 h2)
        · rw [if_pos (by omega : y.toNat < x.toNat)] at h2
          exact absurd h2 (by simp)

theorem charListLt_trans : ∀ a b c : List Char,
    charListLt a b = true → charListLt b c = true → charListLt a c = true := by
  intro a
  induction a with
  | nil =>
    intro b c h1 h2
    cases b with
    | nil => simp [charListLt] at h1
    | cons y ys =>
      cases c with
      | nil => simp [charListLt] at h2
      | cons z zs => simp [charListLt]
  | cons x xs ih =>
    intro b c h1 h2
    cases b with
    | nil => simp [charListLt] at h1
    | cons y ys =>
      cases c with
      | nil => simp [charListLt] at h2
      | cons z zs =>
        simp only [charListLt] at h1 h2 ⊢
        by_cases h3 : x.toNat < y.toNat
        · by_cases h4 : y.toNat < z.toNat
          · rw [if_pos (by omega : x.toNat < z.toNat)]
          · by_cases h5 : y.toNat = z.toNat
            · rw [if_pos (by omega : x.toNat < z.toNat)]
            · rw [if_neg h4, if_neg h5] at h2
              exact absurd h2 (by simp)
        · by_cases h6 : x.toNat = y.toNat
          · rw [if_neg h3, if_pos h6] at h1
            by_cases h4 : y.toNat < z.toNat
            · rw [if_pos (by omega : x.toNat < z.toNat)]
            · by_cases h5 : y.toNat = z.toNat
              · rw [if_neg h4, if_pos h5] at h2
                rw [if_neg (by omega : ¬ x.toNat < z.toNat), if_pos (by omega : x.toNat = z.toNat)]
                exact ih ys zs h1 h2
              · rw [if_neg h4, if_neg h5] at h2
                exact absurd h2 (by simp)
          · rw [if_neg h3, if_neg h6] at h1
            exact absurd h1 (by simp)

theorem strLt_irrefl (a : String) : strLt a a = false := charListLt_irrefl a.data

theorem strLt_asymm {a b : String} (h : strLt a b = true) : strLt b a = false :=
  charListLt_asymm a.data b.data h

theorem strLt_total {a b : String} (h1 : strLt a b = false) (h2 : strLt b a = false) : a = b := by
  cases a with
  | mk da =>
    cases b with
    | mk db => exact congrArg String.mk (charListLt_total da db h1 h2)

theorem strLt_trans {a b c : String} (h1 : strLt a b = true) (h2 : strLt b c = true) :
    strLt a c = true :=
  charListLt_trans a.data b.data c.data h1 h2

theorem strLt_of_ne {a b : String} (h : a ≠ b) :
    (strLt a b = true ∧ strLt b a = false) ∨ (strLt b a = true ∧ strLt a b = false) := by
  by_cases h1 : strLt a b = true
  · exact Or.inl ⟨h1, strLt_asymm h1⟩
  · have h1' : strLt a b = false := by revert h1; cases strLt a b <;> simp
    by_cases h2 : strLt b a = true
    · exact Or.inr ⟨h2, h1'⟩
    · have h2' : strLt b a = false := by revert h2; cases strLt b a <;> simp
      exact absurd (strLt_total h1' h2') h

instance : IsTotal String descOrder := by
  constructor
  intro a b
  by_cases h : a = b
  · subst h; exact Or.inl (strLt_irrefl a)
  · rcases strLt_of_ne h with ⟨_, h2⟩ | ⟨_, h2⟩
    · exact Or.inr h2
    · exact Or.inl h2

instance : IsTrans String descOrder := by
  constructor
  intro a b c h1 h2
  unfold descOrder at h1 h2 ⊢
  by_cases h : strLt a c = true
  · exfalso
    by_cases hab : a = b
    · subst hab
      simp [h] at h2
    · rcases strLt_of_ne hab with ⟨hx, _⟩ | ⟨hx, _⟩
      · simp [hx] at h1
      · have hbc := strLt_trans hx h
        simp [hbc] at h2
  · revert h
    cases strLt a c <;> simp

/-! ## Insertion-order invariance of the sorted map (C9) -/

theorem Smap.insert_comm {k1 k2 : String} (h : k1 ≠ k2) (v1 v2 : Value) :
    ∀ m : Smap, Smap.insert k1 v1 (Smap.insert k2 v2 m) = Smap.insert k2 v2 (Smap.insert k1 v1 m) := by
  intro m
  induction m with
  | nil =>
    rcases strLt_of_ne h with ⟨hlt, hgt⟩ | ⟨hgt, hlt⟩
    · simp [Smap.insert, hlt, hgt, h, Ne.symm h]
    · simp [Smap.insert, hlt, hgt, h, Ne.symm h]
  | cons p t ih =>
    obtain ⟨k, v⟩ := p
    by_cases e1 : k1 = k
    · subst e1
      rcases strLt_of_ne (Ne.symm h) with ⟨ha, hb⟩ | ⟨hb, ha⟩
      · simp [Smap.insert, ha, hb, h, Ne.symm h, strLt_irrefl]
      · simp [Smap.insert, ha, hb, h, Ne.symm h, strLt_irrefl]
    · by_cases e2 : k2 = k
      · subst e2
        rcases strLt_of_ne h with ⟨ha, hb⟩ | ⟨hb, ha⟩
        · simp [Smap.insert, ha, hb, h, Ne.symm h, strLt_irrefl]
        · simp [Smap.insert, ha, hb, h, Ne.symm h, strLt_irrefl]
      · rcases strLt_of_ne e1 with ⟨a1, b1⟩ | ⟨c1, a1⟩ <;>
          rcases strLt_of_ne e2 with ⟨a2, b2⟩ | ⟨c2, a2⟩
        · rcases strLt_of_ne h with ⟨h12, h21⟩ | ⟨h21, h12⟩
          · simp [Smap.insert, a1, a2, h12, h21, h, Ne.symm h, e1, e2]
          · simp [Smap.insert, a1, a2, h12, h21, h, Ne.symm h, e1, e2]
        · have h12 : strLt k1 k2 = true := strLt_trans a1 c2
          have h21 : strLt k2 k1 = false := strLt_asymm h12
          simp [Smap.insert, a1, a2, c2, h12, h21, h, Ne.symm h, e1, e2]
        · have h21 : strLt k2 k1 = true := strLt_trans a2 c1
          have h12 : strLt k1 k2 = false := strLt_asymm h21
          simp [Smap.insert, a1, a2, c1, h12, h21, h, Ne.symm h, e1, e2]
        · simp only [Smap.insert, a1, a2, e1, e2, if_neg, if_false]
          simp [a1, a2, e1, e2, ih]

theorem fromEntries_perm : ∀ {e1 e2 : List (String × Value)}, e1.Perm e2 →
    (e1.map Prod.fst).Nodup → fromEntries e1 = fromEntries e2 := by
  intro e1 e2 h
  induction h with
  | nil => intro _; rfl
  | cons x h ih =>
    intro hnd
    simp only [List.map_cons, List.nodup_cons] at hnd
    simp only [fromEntries, List.foldr_cons] at ih ⊢
    exact congrArg (Smap.insert x.1 x.2) (ih hnd.2)
  | swap x y l =>
    intro hnd
    simp only [List.map_cons, List.nodup_cons, List.mem_cons] at hnd
    have hxy : y.1 ≠ x.1 := fun e => hnd.1 (Or.inl e)
    simp only [fromEntries, List.foldr_cons]
    exact Smap.insert_comm hxy y.2 x.2 _
  | trans h1 _ ih1 ih2 =>
    intro hnd
    have hnd2 := ((h1.map Prod.fst).nodup_iff).mp hnd
    exact (ih1 hnd).trans (ih2 hnd2)

/-! ## State-marker counter lemmas (C2, C3) -/

theorem filesProcessed_apply (m : StateMarker) (op : MarkerOp) :
    (op.apply m).processing_phase.files_processed =
      (match op with
       | .start_processing _ _ => 0
       | .complete_file_processing _ _ _ => m.processing_phase.files_processed + 1
       | _ => m.processing_phase.files_processed) := by
  cases op with
  | start_download ft now => rfl
  | start_file_download f now => rfl
  | file_downloaded f b now => rfl
  | complete_download now => rfl
  | fail_download e => rfl
  | start_processing ft now => rfl
  | start_file_processing f now => rfl
  | update_file_progress f r ms b now =>
    simp only [MarkerOp.apply, StateMarker.update_file_progress]
    split <;> rfl
  | complete_file_processing f r now =>
    simp only [MarkerOp.apply, StateMarker.complete_file_processing]
    split <;> rfl
  | complete_processing now => rfl
  | fail_processing e => rfl
  | update_publishing ms b now => rfl
  | fail_publishing e => rfl
  | complete_extraction =>
    simp only [MarkerOp.apply, StateMarker.complete_extraction]
    split <;> rfl

theorem applyOps_files_processed (ops : List MarkerOp) : ∀ m : StateMarker,
    (applyOps m ops).processing_phase.files_processed =
      fpCount m.processing_phase.files_processed ops := by
  induction ops with
  | nil => intro m; rfl
  | cons op rest ih =>
    intro m
    rw [show applyOps m (op :: rest) = applyOps (op.apply m) rest from rfl, ih (op.apply m),
        filesProcessed_apply m op]
    cases op <;> rfl

theorem recomputeSums_consistent (m : StateMarker) : sumsConsistent m.recomputeSums := by
  refine ⟨rfl, rfl, rfl⟩

theorem update_file_progress_consistent (m : StateMarker) (f : String) (r ms b now : Nat) :
    sumsConsistent (m.update_file_progress f r ms b now) := by
  simp only [StateMarker.update_file_progress]
  split
  · exact ⟨rfl, rfl, rfl⟩
  · exact ⟨rfl, rfl, rfl⟩

theorem complete_file_processing_consistent (m : StateMarker) (f : String) (r now : Nat) :
    sumsConsistent (m.complete_file_processing f r now) := by
  simp only [StateMarker.complete_file_processing]
  split
  · exact ⟨rfl, rfl, rfl⟩
  · exact ⟨rfl, rfl, rfl⟩

/-! ## Version-selection lemmas (C4) -/

theorem hmGet_mem {α : Type} : ∀ (l : HMap α) (k : String), k ∈ l.map Prod.fst →
    ∃ v, hmGet k l = some v ∧ (k, v) ∈ l := by
  intro l
  induction l with
  | nil => intro k h; simp at h
  | cons p t ih =>
    intro k h
    obtain ⟨k', v'⟩ := p
    by_cases he : k' = k
    · subst he
      exact ⟨v', by simp [hmGet], by simp⟩
    · have hk : k ∈ t.map Prod.fst := by
        simp only [List.map_cons, List.mem_cons] at h
        exact h.resolve_left (fun e => he e.symm)
      obtain ⟨v, hv, hmem⟩ := ih k hk
      exact ⟨v, by simp [hmGet, he, hv], List.mem_cons_of_mem _ hmem⟩

theorem hmGet_of_mem_nodup {α : Type} : ∀ (l : HMap α), (l.map Prod.fst).Nodup →
    ∀ p ∈ l, hmGet p.1 l = some p.2 := by
  intro l
  induction l with
  | nil => intro _ p h; simp at h
  | cons q t ih =>
    intro hnd p hp
    obtain ⟨k', v'⟩ := q
    simp only [List.map_cons, List.nodup_cons] at hnd
    rcases List.mem_cons.mp hp with rfl | hp'
    · simp [hmGet]
    · have hne : k' ≠ p.1 := by
        intro e
        exact hnd.1 (e ▸ List.mem_map_of_mem Prod.fst hp')
      simp [hmGet, hne, ih hnd.2 p hp']

theorem groupAdd_keys (k : String) (f : S3FileInfo) : ∀ l : List (String × List S3FileInfo),
    (groupAdd k f l).map Prod.fst =
      if k ∈ l.map Prod.fst then l.map Prod.fst else l.map Prod.fst ++ [k] := by
  intro l
  induction l with
  | nil => simp [groupAdd]
  | cons p t ih =>
    obtain ⟨k', fs⟩ := p
    by_cases h : k' = k
    · subst h
      simp [groupAdd]
    · by_cases hk : k ∈ t.map Prod.fst
      · simp [groupAdd, h, ih, hk, Ne.symm h]
      · simp [groupAdd, h, ih, hk, Ne.symm h]

theorem groupAdd_nodupKeys (k : String) (f : S3FileInfo) (l : List (String × List S3FileInfo))
    (h : (l.map Prod.fst).Nodup) : ((groupAdd k f l).map Prod.fst).Nodup := by
  rw [groupAdd_keys]
  by_cases hk : k ∈ l.map Prod.fst
  · simpa [hk]
  · simp only [hk, if_false]
    simp [List.nodup_append, h, hk]

theorem groupByVersion_aux_nodupKeys : ∀ (files : List S3FileInfo)
    (acc : List (String × List S3FileInfo)), (acc.map Prod.fst).Nodup →
    ((files.foldl
        (fun m f =>
          match splitChar '_' f.name with
          | _ :: id :: _ => groupAdd id f m
          | _ => m)
        acc).map Prod.fst).Nodup := by
  intro files
  induction files with
  | nil => intro acc h; simpa
  | cons f rest ih =>
    intro acc h
    simp only [List.foldl_cons]
    apply ih
    cases hs : splitChar '_' f.name with
    | nil => simpa
    | cons a t =>
      cases t with
      | nil => simpa
      | cons id t' => exact groupAdd_nodupKeys id f acc h

theorem groupByVersion_nodupKeys (files : List S3FileInfo) :
    ((groupByVersion files).map Prod.fst).Nodup :=
  groupByVersion_aux_nodupKeys files [] (by simp)

theorem selectVersion_spec (ids : List (String × List S3FileInfo)) :
    ∀ keys : List String, List.Sorted descOrder keys →
      (selectVersion ids keys = [] ∧ ∀ k ∈ keys, ¬ completeGroup (groupOf ids k))
      ∨ (∃ k, k ∈ keys ∧ completeGroup (groupOf ids k)
          ∧ selectVersion ids keys = dataFilesOf (groupOf ids k)
          ∧ ∀ k' ∈ keys, completeGroup (groupOf ids k') → descOrder k k') := by
  intro keys
  induction keys with
  | nil => intro _; exact Or.inl ⟨rfl, by simp⟩
  | cons k rest ih =>
    intro hs
    have hs' : List.Sorted descOrder rest := hs.of_cons
    have hhead : ∀ k' ∈ rest, descOrder k k' := List.rel_of_sorted_cons hs
    by_cases hc : completeGroup (groupOf ids k)
    · right
      obtain ⟨h5, h4⟩ := hc
      refine ⟨k, List.mem_cons_self k rest, ⟨h5, h4⟩, ?_, ?_⟩
      · simp only [selectVersion]
        rw [if_neg (by simp [h5]), if_pos h4]
      · intro k' hk' _
        rcases List.mem_cons.mp hk' with rfl | hk'
        · exact strLt_irrefl _
        · exact hhead k' hk'
    · have heq : selectVersion ids (k :: rest) = selectVersion ids rest := by
        by_cases h5 : (groupOf ids k).length = 5
        · have h4 : ¬ (dataFilesOf (groupOf ids k)).length = 4 := fun h4 => hc ⟨h5, h4⟩
          simp only [selectVersion]
          rw [if_neg (by simp [h5]), if_neg h4]
        · simp only [selectVersion]
          rw [if_pos (by simpa using h5)]
      rcases ih hs' with ⟨he, hall⟩ | ⟨k0, hmem, hc0, heq0, hmax⟩
      · left
        refine ⟨heq.trans he, ?_⟩
        intro k' hk'
        rcases List.mem_cons.mp hk' with rfl | hk'
        · exact hc
        · exact hall k' hk'
      · right
        refine ⟨k0, List.mem_cons_of_mem _ hmem, hc0, heq.trans heq0, ?_⟩
        intro k' hk' hck'
        rcases List.mem_cons.mp hk' with rfl | hk'
        · exact absurd hck' hc
        · exact hmax k' hk' hck'

/-! ## Batcher lemmas (C10) -/

theorem message_batcher_join (bs : Nat) : ∀ (events : List RecvEvent) (batch : List DataMessage),
    (message_batcher bs batch events).flatten = batch ++ eventMessages events := by
  intro events
  induction events with
  | nil =>
    intro batch
    cases batch <;> simp [message_batcher, eventMessages]
  | cons ev rest ih =>
    intro batch
    cases ev with
    | msg m =>
      simp only [message_batcher]
      split
      · simp [ih, eventMessages]
      · simp [ih, eventMessages]
    | timeout over =>
      simp only [message_batcher]
      split
      · simp [ih, eventMessages]
      · simp [ih, eventMessages]

theorem message_batcher_sizes (bs : Nat) (hbs : 1 ≤ bs) :
    ∀ (events : List RecvEvent) (batch : List DataMessage), batch.length < bs →
      ∀ b ∈ message_batcher bs batch events, b ≠ [] ∧ b.length ≤ bs := by
  intro events
  induction events with
  | nil =>
    intro batch hlt b hb
    simp only [message_batcher] at hb
    split at hb
    · simp at hb
    · rename_i hne
      rw [List.mem_singleton] at hb
      subst hb
      exact ⟨by simpa using hne, Nat.le_of_lt hlt⟩
  | cons ev rest ih =>
    intro batch hlt b hb
    cases ev with
    | msg m =>
      simp only [message_batcher] at hb
      split at hb
      · rename_i hfull
        rcases List.mem_cons.mp hb with rfl | hb'
        · constructor
          · simp
          · simp only [List.length_append, List.length_cons, List.length_nil] at hfull ⊢
            omega
        · exact ih [] (by simpa using hbs) b hb'
      · rename_i hnotfull
        refine ih (batch ++ [m]) ?_ b hb
        simp only [List.length_append, List.length_cons, List.length_nil] at hnotfull ⊢
        omega
    | timeout over =>
      simp only [message_batcher] at hb
      split at hb
      · rename_i hflush
        rcases List.mem_cons.mp hb with rfl | hb'
        · refine ⟨?_, Nat.le_of_lt hlt⟩
          simp only [Bool.and_eq_true, Bool.not_eq_true'] at hflush
          simpa using hflush.1
        · exact ih [] (by simpa using hbs) b hb'
      · exact ih batch hlt b hb

/-! ## Claim C1 -/

/-- C1 counterexample: an Artists record carrying both an `id` attribute
(`"1"`) and an `id` child element (`"2"`) is emitted with id `"1"` — the
attribute, not the child element, so the claimed child-first rule is
false at this input. -/
theorem c1_counterexample :
    ¬ ((parse_file DataType.Artists (artistsBothIdsStream "1" "2")).messages.map
        (fun m => m.id) = ["2"])
    ∧ (parse_file DataType.Artists (artistsBothIdsStream "1" "2")).messages.map
        (fun m => m.id) = ["1"] :=
  ⟨by decide, rfl⟩

/-- C1 (amended): for every record assembled from an open/close target
element pair — any data type, any parser state closing the record — the
emitted DataMessage's id is obtained from the assembled payload object by
trying the `@id` attribute key first and only then the `id` child key
(defaulting to "unknown"), after which Masters/Releases mirror the id
into a plain `id` field; hence an Artists or Labels record carrying both
an `id` attribute and an `id` child element with different values gets
the attribute's value, the child element's value is chosen only when no
`id` attribute is present, and Masters/Releases ids come from `@id` as
claimed.  (Self-closing records are emitted through a branch that never
consults `@id`; see C8.) -/
theorem c1_amended (dt : DataType) (st : ParseState) (context : ElementContext)
    (rest : List ElementContext) (obj : Smap) (a c : String)
    (hin : st.in_target_element = true) (hstack : st.element_stack = context :: rest)
    (hdepth : st.depth = 2) (hobj : context.to_value = Value.obj obj)
    (hc : strTrim c = c) (hne : c ≠ "") :
    ((parseStep dt st (.endTag (target_element dt))).messages =
       st.messages ++
         [{ id := record_id obj,
            sha256 := calculate_record_hash (Value.obj (mirror_id dt (record_id obj) obj)),
            data := Value.obj (mirror_id dt (record_id obj) obj) }])
    ∧ (parse_file DataType.Artists (artistsBothIdsStream a c)).messages.map (fun m => m.id) = [a]
    ∧ (parse_file DataType.Labels (labelsChildIdStream c)).messages.map (fun m => m.id) = [c]
    ∧ (parse_file DataType.Masters (mastersAttrIdStream a)).messages.map (fun m => m.id) = [a]
    ∧ (parse_file DataType.Releases (releasesAttrIdStream a)).messages.map (fun m => m.id) = [a] := by
  have hbe : (c == "") = false := by
    cases hb : c == "" with
    | true => exact absurd (by simpa using hb) hne
    | false => rfl
  refine ⟨?_, ?_, ?_, ?_, ?_⟩
  · simp only [parseStep, hin, hstack, hdepth, hobj, if_true, and_self, record_id, mirror_id]
  · simp [parse_file, parseStep, artistsBothIdsStream, ElementContext.to_value,
          ElementContext.add_child, ElementContext.new, parseAttrs, Smap.insert, Smap.get,
          Value.as_str, target_element, hc, hbe, strLt, charListLt]
  · simp [parse_file, parseStep, labelsChildIdStream, ElementContext.to_value,
          ElementContext.add_child, ElementContext.new, parseAttrs, Smap.insert, Smap.get,
          Value.as_str, target_element, hc, hbe, strLt, charListLt]
  · rfl
  · rfl

/-- C1 witness: the general rule applied to a concrete closing state
whose record carries an `id` attribute, together with the four
end-to-end instances at a = "1", c = "2". -/
theorem c1_witness :
    (c1State.in_target_element = true
     ∧ c1State.element_stack = [c1Context]
     ∧ c1State.depth = 2
     ∧ c1Context.to_value = Value.obj [("@id", Value.str "1")]
     ∧ strTrim "2" = "2"
     ∧ "2" ≠ "")
    ∧ (((parseStep DataType.Artists c1State
          (.endTag (target_element DataType.Artists))).messages =
         c1State.messages ++
           [{ id := record_id [("@id", Value.str "1")],
              sha256 := calculate_record_hash
                (Value.obj (mirror_id DataType.Artists (record_id [("@id", Value.str "1")])
                  [("@id", Value.str "1")])),
              data := Value.obj (mirror_id DataType.Artists (record_id [("@id", Value.str "1")])
                [("@id", Value.str "1")]) }])
       ∧ (parse_file DataType.Artists (artistsBothIdsStream "1" "2")).messages.map
           (fun m => m.id) = ["1"]
       ∧ (parse_file DataType.Labels (labelsChildIdStream "2")).messages.map
           (fun m => m.id) = ["2"]
       ∧ (parse_file DataType.Masters (mastersAttrIdStream "1")).messages.map
           (fun m => m.id) = ["1"]
       ∧ (parse_file DataType.Releases (releasesAttrIdStream "1")).messages.map
           (fun m => m.id) = ["1"]) :=
  ⟨⟨rfl, rfl, rfl, rfl, rfl, by decide⟩,
   c1_amended DataType.Artists c1State c1Context [] [("@id", Value.str "1")] "1" "2"
     rfl rfl rfl rfl rfl (by decide)⟩

/-! ## Claim C2 -/

/-- C2 counterexample: completing the same file twice leaves
`files_processed = 2` while only one entry of the per-file map is
Completed, so the claimed invariant fails on this operation sequence. -/
theorem c2_counterexample :
    (applyOps (StateMarker.new "20240101" 0) doubleCompleteOps).processing_phase.files_processed = 2
    ∧ completedCount
        (applyOps (StateMarker.new "20240101" 0) doubleCompleteOps).processing_phase.progress_by_file
      = 1
    ∧ ¬ ((applyOps (StateMarker.new "20240101" 0)
            doubleCompleteOps).processing_phase.files_processed =
         completedCount
           (applyOps (StateMarker.new "20240101" 0)
             doubleCompleteOps).processing_phase.progress_by_file) :=
  ⟨rfl, rfl, by decide⟩

/-- C2 (amended): after any sequence of state-marker operations,
`files_processed` equals the number of `complete_file_processing` calls
made since the most recent `start_processing` (or since creation); it
agrees with the Completed-entry count only when each file is completed
exactly once after that `start_processing`. -/
theorem c2_amended (v : String) (now : Nat) (ops : List MarkerOp) :
    (applyOps (StateMarker.new v now) ops).processing_phase.files_processed = fpCount 0 ops :=
  applyOps_files_processed ops (StateMarker.new v now)

/-! ## Claim C3 -/

/-- C3 counterexample: `update_publishing` increments the publishing
aggregates directly; on a fresh marker it leaves
`messages_published = 100` while the per-file sums are 0. -/
theorem c3_counterexample :
    ((StateMarker.new "20240101" 0).update_publishing 100 1 0).publishing_phase.messages_published
      = 100
    ∧ (((StateMarker.new "20240101" 0).update_publishing 100 1
          0).processing_phase.progress_by_file.map (fun p => p.2.messages_published)).sum = 0
    ∧ ¬ sumsConsistent ((StateMarker.new "20240101" 0).update_publishing 100 1 0) :=
  ⟨rfl, rfl, by decide⟩

/-- C3 (amended): `update_file_progress` and `complete_file_processing`
recompute all three aggregates as sums over the per-file map, but
`update_publishing` updates the publishing aggregates by separate
incrementation. -/
theorem c3_amended (m : StateMarker) (f : String) (r ms b now : Nat) :
    sumsConsistent (m.update_file_progress f r ms b now)
    ∧ sumsConsistent (m.complete_file_processing f r now)
    ∧ (m.update_publishing ms b now).publishing_phase.messages_published
        = m.publishing_phase.messages_published + ms
    ∧ (m.update_publishing ms b now).publishing_phase.batches_sent
        = m.publishing_phase.batches_sent + b :=
  ⟨update_file_progress_consistent m f r ms b now,
   complete_file_processing_consistent m f r now, rfl, rfl⟩

/-! ## Claim C4 -/

/-- C4 counterexample: a version whose five files are four data files and
a README — no CHECKSUM anywhere — is selected, contradicting the claimed
requirement that a five-entry group lacking a CHECKSUM must not be
selected. -/
theorem c4_counterexample :
    get_latest_monthly_files fiveWithoutChecksum =
      [{ name := "discogs_20241215_artists.xml.gz", size := 1 },
       { name := "discogs_20241215_labels.xml.gz", size := 1 },
       { name := "discogs_20241215_masters.xml.gz", size := 1 },
       { name := "discogs_20241215_releases.xml.gz", size := 1 }]
    ∧ ∀ f ∈ fiveWithoutChecksum, ¬ ("CHECKSUM".data <:+: f.name.data) := by
  refine ⟨by decide, by decide⟩

/-- C4 (amended): grouping is by the second `_`-separated component, a
version is selected exactly when its group has exactly five entries of
which exactly four end in `.xml.gz` (the source never looks for a
CHECKSUM entry), the selected version is the lexicographically greatest
such one and its four data files are returned with the `data/` prefix
stripped, and the empty list is returned when no group qualifies. -/
theorem c4_amended (files : List S3FileInfo) :
    (get_latest_monthly_files files = []
      ∧ ∀ p ∈ groupByVersion files, ¬ completeGroup p.2)
    ∨ (∃ p ∈ groupByVersion files, completeGroup p.2
        ∧ get_latest_monthly_files files = dataFilesOf p.2
        ∧ ∀ q ∈ groupByVersion files, completeGroup q.2 → strLt p.1 q.1 = false) := by
  have hnd := groupByVersion_nodupKeys files
  have hsorted : List.Sorted descOrder
      (List.insertionSort descOrder ((groupByVersion files).map Prod.fst)) :=
    List.sorted_insertionSort descOrder _
  have hperm := List.perm_insertionSort descOrder ((groupByVersion files).map Prod.fst)
  have hglmf : get_latest_monthly_files files =
      selectVersion (groupByVersion files)
        (List.insertionSort descOrder ((groupByVersion files).map Prod.fst)) := rfl
  rcases selectVersion_spec (groupByVersion files) _ hsorted with
    ⟨he, hall⟩ | ⟨k, hk, hc, heq, hmax⟩
  · left
    refine ⟨hglmf.trans he, ?_⟩
    intro p hp
    have hkeys : p.1 ∈ List.insertionSort descOrder ((groupByVersion files).map Prod.fst) :=
      hperm.mem_iff.mpr (List.mem_map_of_mem Prod.fst hp)
    have hgo : groupOf (groupByVersion files) p.1 = p.2 := by
      unfold groupOf
      rw [hmGet_of_mem_nodup _ hnd p hp]
      rfl
    have := hall p.1 hkeys
    rwa [hgo] at this
  · right
    have hkey : k ∈ (groupByVersion files).map Prod.fst := hperm.mem_iff.mp hk
    obtain ⟨v, hv, hmemv⟩ := hmGet_mem _ k hkey
    have hgo : groupOf (groupByVersion files) k = v := by
      unfold groupOf
      rw [hv]
      rfl
    refine ⟨(k, v), hmemv, ?_, ?_, ?_⟩
    · rw [← hgo]
      exact hc
    · rw [hglmf, heq, hgo]
    · intro q hq hcq
      have hqkeys : q.1 ∈ List.insertionSort descOrder ((groupByVersion files).map Prod.fst) :=
        hperm.mem_iff.mpr (List.mem_map_of_mem Prod.fst hq)
      have hgq : groupOf (groupByVersion files) q.1 = q.2 := by
        unfold groupOf
        rw [hmGet_of_mem_nodup _ hnd q hq]
        rfl
      exact hmax q.1 hqkeys (by rw [hgq]; exact hcq)

/-! ## Claim C5 -/

/-- C5 counterexample: the cached file exists and its recomputed checksum
matches the sidecar entry, the stored size (1) differs from the known
remote size (2), yet `should_download` returns `false` — sizes are never
compared. -/
theorem c5_counterexample :
    should_download c5Disk "/discogs-data" c5Meta c5Remote = false
    ∧ (hmGet "f.xml.gz" c5Meta).map (fun i => i.size) = some 1
    ∧ c5Remote.size = 2 :=
  ⟨rfl, rfl, rfl⟩

/-- C5 (amended): `should_download` returns `false` exactly when the
local file exists, a sidecar metadata entry for its base name exists, and
the recomputed SHA-256 equals the stored checksum; the remote size is
never consulted. -/
theorem c5_amended (disk : LocalDisk) (outdir : String) (meta : HMap LocalFileInfo)
    (fi : S3FileInfo) :
    should_download disk outdir meta fi = false ↔
      (disk.pathExists (outdir ++ "/" ++ baseName fi.name) = true
       ∧ ∃ info, hmGet (baseName fi.name) meta = some info
           ∧ disk.checksumOf (outdir ++ "/" ++ baseName fi.name) = info.checksum) := by
  unfold should_download
  cases he : disk.pathExists (outdir ++ "/" ++ baseName fi.name) with
  | false => simp [he]
  | true =>
    cases hg : hmGet (baseName fi.name) meta with
    | none => simp [he, hg]
    | some info =>
      by_cases hcs : disk.checksumOf (outdir ++ "/" ++ baseName fi.name) = info.checksum
      · simp [he, hg, hcs]
      · simp [he, hg, hcs]

/-! ## Claim C6 -/

/-- C6 counterexample: a loadable marker whose summary is Completed while
the processing phase is InProgress is not skipped — `should_process`
returns Continue, so "summary Completed is always skipped" is false. -/
theorem c6_counterexample :
    completedButInProgressMarker.summary.overall_status = PhaseStatus.Completed
    ∧ completedButInProgressMarker.should_process = ProcessingDecision.Continue
    ∧ completedButInProgressMarker.should_process ≠ ProcessingDecision.Skip :=
  ⟨rfl, rfl, by decide⟩

/-- C6 (amended): `should_process` applies its rules in priority order —
download Failed gives Reprocess; otherwise processing Failed or
InProgress gives Continue; only otherwise does summary Completed give
Skip; everything else continues. -/
theorem c6_amended (m : StateMarker) :
    (m.should_process = ProcessingDecision.Reprocess ↔
      m.download_phase.status = PhaseStatus.Failed)
    ∧ (m.should_process = ProcessingDecision.Skip ↔
        (m.download_phase.status ≠ PhaseStatus.Failed
         ∧ m.processing_phase.status ≠ PhaseStatus.Failed
         ∧ m.processing_phase.status ≠ PhaseStatus.InProgress
         ∧ m.summary.overall_status = PhaseStatus.Completed))
    ∧ (m.should_process = ProcessingDecision.Continue ↔
        (m.download_phase.status ≠ PhaseStatus.Failed
         ∧ (m.processing_phase.status = PhaseStatus.Failed
            ∨ m.processing_phase.status = PhaseStatus.InProgress
            ∨ m.summary.overall_status ≠ PhaseStatus.Completed))) := by
  unfold StateMarker.should_process
  by_cases h1 : m.download_phase.status = PhaseStatus.Failed <;>
    by_cases h2 : m.processing_phase.status = PhaseStatus.Failed <;>
      by_cases h3 : m.processing_phase.status = PhaseStatus.InProgress <;>
        by_cases h4 : m.summary.overall_status = PhaseStatus.Completed <;>
          simp [h1, h2, h3, h4]

/-! ## Claim C7 -/

/-- C7 counterexample: in the rustextractor per-file pipeline the
`file_complete` publish happens strictly before the durable
mark-processed write, contradicting the claimed order for that
pipeline. -/
theorem c7_counterexample :
    stepPos rustextractor_pipeline_trace PipelineStep.send_file_complete <
      stepPos rustextractor_pipeline_trace PipelineStep.mark_processed_in_processing_state := by
  decide

/-- C7 (amended): in the StateMarker-based pipeline
(src/extractor/src/extractor.rs) the marker's Completed transition
strictly precedes the FileCompleteMessage publish; the rustextractor
pipeline instead durably marks the file processed only after the
publish. -/
theorem c7_amended :
    stepPos process_single_file_trace PipelineStep.marker_complete_file_processing <
      stepPos process_single_file_trace PipelineStep.send_file_complete
    ∧ stepPos rustextractor_pipeline_trace PipelineStep.send_file_complete <
        stepPos rustextractor_pipeline_trace PipelineStep.mark_processed_in_processing_state := by
  refine ⟨by decide, by decide⟩

/-! ## Claim C8 -/

/-- C8: the self-closing form `<release id="7"/>` and the open/close pair
`<release id="7"></release>` do not yield the same DataMessage — the
self-closing path looks the record id up under the plain `id` key (which
attributes never produce) and skips the Masters/Releases id mirroring, so
it emits id "unknown" and a payload without the plain `id` field, while
the open/close form emits id "7" with the mirrored field. -/
theorem c8_divergence :
    (parse_file DataType.Releases selfClosingRelease).messages.map (fun m => m.id) = ["unknown"]
    ∧ (parse_file DataType.Releases openCloseRelease).messages.map (fun m => m.id) = ["7"]
    ∧ (parse_file DataType.Releases selfClosingRelease).messages.map
        (fun m => Smap.get "id" (payloadFields m)) = [none]
    ∧ (parse_file DataType.Releases openCloseRelease).messages.map
        (fun m => Smap.get "id" (payloadFields m)) = [some (Value.str "7")]
    ∧ (parse_file DataType.Releases selfClosingRelease).messages.map
        (fun m => Smap.get "@id" (payloadFields m)) = [some (Value.str "7")] :=
  ⟨rfl, rfl, rfl, rfl, rfl⟩

/-! ## Claim C9 -/

/-- C9: the record hash is canonical — building the payload object by
inserting the same key-value entries in any order (duplicate-free keys)
yields the identical SHA-256 hex string, and the hash is a pure function
of the payload, hence stable across runs. -/
theorem c9_hash_canonical (e1 e2 : List (String × Value)) (hperm : e1.Perm e2)
    (hnd : (e1.map Prod.fst).Nodup) :
    calculate_record_hash (Value.obj (fromEntries e1)) =
      calculate_record_hash (Value.obj (fromEntries e2)) :=
  congrArg calculate_record_hash (congrArg Value.obj (fromEntries_perm hperm hnd))

/-- C9 witness: two insertion orders of the same two entries hash
identically. -/
theorem c9_witness :
    ([("b", Value.null), ("a", Value.str "x")] : List (String × Value)).Perm
        [("a", Value.str "x"), ("b", Value.null)]
    ∧ (([("b", Value.null), ("a", Value.str "x")] : List (String × Value)).map
        Prod.fst).Nodup
    ∧ calculate_record_hash (Value.obj (fromEntries [("b", Value.null), ("a", Value.str "x")])) =
        calculate_record_hash (Value.obj (fromEntries [("a", Value.str "x"), ("b", Value.null)])) :=
  ⟨List.Perm.swap _ _ _, by decide,
   c9_hash_canonical _ _ (List.Perm.swap _ _ _) (by decide)⟩

/-! ## Claim C10 -/

/-- C10: the batcher neither loses, duplicates, nor reorders records —
the concatenation of the emitted batches equals the consumed message
sequence in order, every emitted batch is non-empty, and no batch
exceeds `batch_size` (for any positive `batch_size`). -/
theorem c10_batcher (bs : Nat) (events : List RecvEvent) (hbs : 1 ≤ bs) :
    (message_batcher bs [] events).flatten = eventMessages events
    ∧ ∀ b ∈ message_batcher bs [] events, b ≠ [] ∧ b.length ≤ bs := by
  constructor
  · simpa using message_batcher_join bs events []
  · exact message_batcher_sizes bs hbs events [] (by simpa using hbs)

/-- C10 witness: the batcher at batch size 2 on a five-event input. -/
theorem c10_witness :
    1 ≤ 2
    ∧ ((message_batcher 2 [] c10Events).flatten = eventMessages c10Events
       ∧ ∀ b ∈ message_batcher 2 [] c10Events, b ≠ [] ∧ b.length ≤ 2) :=
  ⟨by decide, c10_batcher 2 c10Events (by decide)⟩

/-! ## End-to-end sanity checks of the embedding

The digest below was computed independently with a reference SHA-256
implementation over the serde_json serialization of the payload, so the
whole serialization-and-hash pipeline of the embedding agrees with the
real one on this record. -/

set_option maxRecDepth 8000 in
theorem parse_hash_pipeline_check :
    (parse_file DataType.Releases openCloseRelease).messages.map (fun m => m.sha256) =
      ["5b09552e72a4789bff4c57ebaa33bc0cdff8ed0d87d2b99fe8e7588a4f3a26d0"]
    ∧ (parse_file DataType.Releases openCloseRelease).messages.map (fun m => m.data.render) =
      ["\x7b\"@id\":\"7\",\"id\":\"7\"\x7d"] := by
  refine ⟨by rfl, by rfl⟩
